import Mathlib

/-!
Verification of the MNMT data pipeline of this repository: a shallow
embedding of `common/data.py` (language registry, corpus adapters, the
temperature-sampling stream) and of the masked metrics of `train.py`,
together with theorems settling the specified behaviour of each part.

Python conventions used throughout the embedding: a dict is an
association list with string keys, a dataloader is the list of the
batches it yields, exceptions are the `Except` error component, and the
per-step random draws (pair choice, direction coin flip) are explicit
arguments, as the design notes of the specification ask.
-/

namespace NMT

/-- Python exceptions that the embedded code can raise. -/
inductive PyErr where
  | keyError
  | typeError
  | valueError
  | fileNotFoundError
  | notImplementedError
  | indexError
  | stopIteration
  | nameError (ident : String)
  deriving DecidableEq

/-- Lookup in a Python dict represented as an association list. -/
def lookupList {α : Type} : List (String × α) → String → Option α
  | [], _ => none
  | (k, v) :: rest, key => if k = key then some v else lookupList rest key

/-- Assignment `m[key] = v` at a key that is already present: replace its value. -/
def setList {α : Type} : List (String × α) → String → α → List (String × α)
  | [], _, _ => []
  | kv :: rest, key, v => (if kv.1 = key then (key, v) else kv) :: setList rest key v

/-- A Python for-loop that builds a list and can raise. -/
def mapExcept {α β : Type} (f : α → Except PyErr β) : List α → Except PyErr (List β)
  | [] => .ok []
  | x :: xs =>
    match f x with
    | .error e => .error e
    | .ok y =>
      match mapExcept f xs with
      | .error e => .error e
      | .ok ys => .ok (y :: ys)

/-- Fixed-size batching as a torch DataLoader performs it: consecutive
chunks of `b` items, the last one possibly shorter.  The fuel argument is
the length of the list, which bounds the number of chunks. -/
def chunksAux {α : Type} (b : ℕ) : ℕ → List α → List (List α)
  | 0, _ => []
  | _, [] => []
  | fuel + 1, xs => xs.take b :: chunksAux b fuel (xs.drop b)

/-- All batches yielded by a DataLoader with batch size `b` over `xs`
(a DataLoader rejects batch size 0, rendered here as no batches). -/
def chunks {α : Type} (b : ℕ) (xs : List α) : List (List α) :=
  if b = 0 then [] else chunksAux b xs.length xs

/-- Split a list of characters at each dash. -/
def splitDashAux : List Char → List Char → List (List Char)
  | [], acc => [acc.reverse]
  | c :: cs, acc =>
    if c = '-' then acc.reverse :: splitDashAux cs [] else splitDashAux cs (c :: acc)

/-- `x.split("-")[0]` and `x.split("-")[1]` for a pair key `l1-l2`. -/
def splitPair (s : String) : String × String :=
  let parts := (splitDashAux s.toList []).map String.mk
  (parts.getD 0 "", parts.getD 1 "")

/-! ### train.py lines 17-26: masked loss and accuracy -/

/-- The mask `torch.logical_not(y_true == 0).float()`, elementwise over the
positions of the flattened target tensor. -/
def maskOf (y_true : List ℕ) : List ℚ :=
  y_true.map (fun t => if t = 0 then 0 else 1)

/-- `train.py` `loss_fn`: the criterion applied per position, masked by the
nonzero-target mask, normalised by the mask total `(maskOf y_true).sum`. -/
def loss_fn {α : Type} (y_pred : List α) (y_true : List ℕ) (criterion : α → ℕ → ℚ) : ℚ :=
  (List.zipWith (fun l m => l * m) (List.zipWith criterion y_pred y_true) (maskOf y_true)).sum
    / (maskOf y_true).sum

/-- `torch.argmax` over a logit vector: index of the first maximal entry. -/
def listArgmax (l : List ℚ) : ℕ :=
  match l.max? with
  | none => 0
  | some m => l.indexOf m

/-- `train.py` `accuracy_fn`: fraction of nonzero-target positions whose
argmax prediction equals the target, with divisor `(maskOf y_true).sum`. -/
def accuracy_fn (y_pred : List (List ℚ)) (y_true : List ℕ) : ℚ :=
  (List.zipWith (fun a m => a * m)
      (List.zipWith (fun p t => if listArgmax p = t then (1 : ℚ) else 0) y_pred y_true)
      (maskOf y_true)).sum
    / (maskOf y_true).sum

/-! ### data.py lines 10-60: static registries -/

/-- data.py lines 10-50: the ted to mBart language code table. -/
def LANG_CODES : List (String × String) :=
  [("ar", "ar_AR"), ("az", "az_AZ"), ("bn", "bn_IN"), ("cs", "cs_CZ"),
   ("de", "de_DE"), ("en", "en_XX"), ("es", "es_XX"), ("et", "et_EE"),
   ("fi", "fi_FI"), ("fr", "fr_XX"), ("gl", "gl_ES"), ("he", "he_IL"),
   ("hi", "hi_IN"), ("hr", "hr_HR"), ("id", "id_ID"), ("it", "it_IT"),
   ("ja", "ja_XX"), ("ka", "ka_GE"), ("kk", "kk_KZ"), ("ko", "ko_KR"),
   ("lt", "lt_LT"), ("mk", "mk_MK"), ("mn", "mn_MN"), ("mr", "mr_IN"),
   ("my", "my_MM"), ("nl", "nl_XX"), ("pl", "pl_PL"), ("pt", "pt_XX"),
   ("ro", "ro_RO"), ("ru", "ru_RU"), ("sl", "sl_SI"), ("sv", "sv_SE"),
   ("ta", "ta_IN"), ("th", "th_TH"), ("tr", "tr_TR"), ("uk", "uk_UA"),
   ("ur", "ur_PK"), ("vi", "vi_VN"), ("zh", "zh_CN")]

/-- data.py lines 53-60: the dataset used for each language pair. -/
def BITEXT_DATASETS : List (String × String) :=
  [("en-tr", "ted_multi"), ("az-en", "ted_multi"), ("az-tr", "ted_multi"),
   ("cs-en", "wmt14"), ("en-fr", "wmt14"), ("de-en", "wmt19")]

/-! ### data.py lines 63-74: catalog loading -/

/-- A Python value as it flows through `load_our_dataset`: None, a string,
or a bool (line 64 can bind the name to a boolean). -/
inductive PyVal where
  | pnone
  | pstr (s : String)
  | pbool (b : Bool)
  deriving DecidableEq

/-- Python equality test between such a value and a string literal:
a non-string value is simply unequal. -/
def PyVal.eqStr : PyVal → String → Bool
  | .pstr s, t => s = t
  | _, _ => false

/-- Python slice `v[:3]`: defined on strings, TypeError on anything else. -/
def PyVal.slice3 : PyVal → Except PyErr String
  | .pstr s => .ok (s.take 3)
  | _ => .error .typeError

/-- Modelled from the spec: the corpus storage boundary (the HuggingFace
`load_dataset` and `load_from_disk` calls are external collaborators).
`hubConfigs` holds the (corpus, pair) configurations the hub can serve,
`hubPlain` the corpora loadable without a pair key, and `diskPaths` the
locally cached paths. -/
structure Catalog where
  hubConfigs : List (String × String)
  hubPlain : List String
  diskPaths : List String

/-- `load_dataset(name)` without a configuration key. -/
def Catalog.load_dataset_plain (cat : Catalog) (name : String) : Except PyErr String :=
  if name ∈ cat.hubPlain then .ok ("hub:" ++ name) else .error .valueError

/-- `load_dataset(name, lang_pair)`: a missing configuration raises ValueError. -/
def Catalog.load_dataset_config (cat : Catalog) (name pair : String) : Except PyErr String :=
  if (name, pair) ∈ cat.hubConfigs then .ok ("hub:" ++ name ++ ":" ++ pair)
  else .error .valueError

/-- `load_from_disk(path)`: a missing path raises FileNotFoundError. -/
def Catalog.load_from_disk (cat : Catalog) (path : String) : Except PyErr String :=
  if path ∈ cat.diskPaths then .ok ("disk:" ++ path) else .error .fileNotFoundError

/-- data.py lines 63-74, `load_our_dataset`.  Line 64 reads
`name = BITEXT_DATASETS[lang_pair] == "ted_multi" if name is None else name`,
so with no explicit name the variable is bound to the BOOLEAN result of the
comparison; the table lookup itself raises KeyError for an unknown pair.
Line 67 then evaluates `name[:3]`, which on a boolean raises TypeError. -/
def load_our_dataset (cat : Catalog) (lang_pair : PyVal) (name : PyVal)
    (local_path : String) : Except PyErr String :=
  let resolved : Except PyErr PyVal :=
    if name = .pnone then
      match lang_pair with
      | .pstr lp =>
        match lookupList BITEXT_DATASETS lp with
        | some c => .ok (.pbool (c = "ted_multi"))
        | none => .error .keyError
      | _ => .error .keyError
    else .ok name
  match resolved with
  | .error e => .error e
  | .ok nm =>
    if nm.eqStr "ted_multi" then cat.load_dataset_plain "ted_multi"
    else
      match nm.slice3 with
      | .error e => .error e
      | .ok pre =>
        if pre = "wmt" then
          match nm, lang_pair with
          | .pstr n, .pstr lp =>
            match cat.load_from_disk (local_path ++ "/" ++ n ++ "/" ++ lp) with
            | .ok d => .ok d
            | .error .fileNotFoundError => cat.load_dataset_config n lp
            | .error e => .error e
          | _, _ => .error .typeError
        else .error .notImplementedError

/-! ### The tokenizer boundary and the per-language tokenization step -/

/-- Modelled from the spec: the external tokenizer boundary
`encode(text, max_length) -> int[max_length]` (truncate or pad) together
with the locale-marker table `lang_code_to_id`.  `rawEncode` stands for the
opaque subword encoding before padding and `padId` for the pad token. -/
structure Tokenizer where
  rawEncode : String → List ℕ
  padId : ℕ
  lang_code_to_id : String → ℕ

/-- `tokenizer.encode(text, padding="max_length", max_length=m, truncation=True)`:
truncate the raw encoding to `m` tokens and pad it up to exactly `m`. -/
def Tokenizer.encode (tk : Tokenizer) (text : String) (max_length : ℕ) : List ℕ :=
  (tk.rawEncode text).take max_length
    ++ List.replicate (max_length - (tk.rawEncode text).length) tk.padId

/-- Python item assignment `seq[0] = v`: IndexError on an empty sequence. -/
def setItem0 (l : List ℕ) (v : ℕ) : Except PyErr (List ℕ) :=
  match l with
  | [] => .error .indexError
  | _ :: xs => .ok (v :: xs)

/-- data.py lines 97-99, the loop body of the TedMulti `tokenize_fn`:
encode one text in one language, then overwrite index 0 with the locale
marker `tokenizer.lang_code_to_id[LANG_CODES[lang]]`. -/
def encodeLang (tk : Tokenizer) (max_len : ℕ) (lang : String) (text : String) :
    Except PyErr (List ℕ) :=
  let encoded := tk.encode text max_len
  match lookupList LANG_CODES lang with
  | none => .error .keyError
  | some code => setItem0 encoded (tk.lang_code_to_id code)

/-- data.py lines 93-101: the TedMulti `tokenize_fn` over all requested
languages, producing the `input_ids_<lang>` columns of one example. -/
def TedMulti.tokenize_fn (tk : Tokenizer) (langs : List String) (max_len : ℕ)
    (record : List (String × String)) : Except PyErr (List (String × List ℕ)) :=
  mapExcept (fun lang =>
    match lookupList record lang with
    | none => .error .keyError
    | some text =>
      match encodeLang tk max_len lang text with
      | .error e => .error e
      | .ok tok => .ok ("input_ids_" ++ lang, tok)) langs

/-- data.py lines 136-139, the WMT per-language step: `batch_encode_plus`
over the texts of a mini-batch, then overwrite index 0 of every row with
the locale marker. -/
def wmtEncodeLang (tk : Tokenizer) (max_len : ℕ) (lang : String) (texts : List String) :
    Except PyErr (List (List ℕ)) :=
  match lookupList LANG_CODES lang with
  | none => .error .keyError
  | some code =>
    mapExcept (fun t => setItem0 (tk.encode t max_len) (tk.lang_code_to_id code)) texts

/-- data.py lines 143-146 composed with lines 132-141: collate a mini-batch
of translation records by language and tokenize each language column. -/
def WMT.collate_fn (tk : Tokenizer) (langs : List String) (max_len : ℕ)
    (examples : List (List (String × String))) :
    Except PyErr (List (String × List (List ℕ))) :=
  mapExcept (fun lang =>
    match mapExcept (fun ex =>
        match lookupList ex lang with
        | none => Except.error PyErr.keyError
        | some t => Except.ok t) examples with
    | .error e => .error e
    | .ok texts =>
      match wmtEncodeLang tk max_len lang texts with
      | .error e => .error e
      | .ok toks => .ok ("input_ids_" ++ lang, toks)) langs

/-! ### data.py lines 78-152: the two corpus adapters -/

/-- Modelled from the spec: `common.preprocess.filter_languages` is not under
src; per the spec the multi-parallel adapter filters the corpus down to only
the examples that contain all requested languages. -/
def filter_languages (dataset : List (List (String × String))) (langs : List String) :
    List (List (String × String)) :=
  dataset.filter (fun ex => langs.all (fun l => (lookupList ex l).isSome))

/-- data.py lines 78-87: the TedMulti adapter state after construction
(`dataset` maps a split name to its raw examples, each a language-to-text
record). -/
structure TedMulti where
  langs : List String
  batch_size : ℕ
  max_len : ℕ
  tokenizer : Tokenizer
  dataset : String → List (List (String × String))

/-- data.py lines 89-109: `TedMulti.load_split`.  The split is filtered,
tokenized, and batched by a DataLoader constructed on line 107 with
`batch_size=5` (a literal, not `self.batch_size`) and no shuffle flag; the
`shuffle` parameter is unused.  Returns the batches and `len(dataset)`. -/
def TedMulti.load_split (d : TedMulti) (split : String) (shuffle : Bool) :
    Except PyErr (List (List (List (String × List ℕ))) × ℕ) :=
  let dataset := filter_languages (d.dataset split) d.langs
  match mapExcept (TedMulti.tokenize_fn d.tokenizer d.langs d.max_len) dataset with
  | .error e => .error e
  | .ok tokenized => .ok (chunks 5 tokenized, dataset.length)

/-- data.py lines 112-121: the WMT adapter state after construction
(`langs` is stored sorted on line 116; `dataset` maps a split name to its
translation records). -/
structure WMTAdapter where
  langs : List String
  batch_size : ℕ
  max_len : ℕ
  tokenizer : Tokenizer
  dataset : String → List (List (String × String))

/-- data.py lines 129-152: `WMT.load_split`.  The DataLoader is constructed
with `self.batch_size` and the collate function; the `shuffle` parameter is
unused.  Returns the collated batches and `len(dataset)`. -/
def WMT.load_split (d : WMTAdapter) (split : String) (shuffle : Bool) :
    Except PyErr (List (List (String × List (List ℕ))) × ℕ) :=
  let dataset := d.dataset split
  match mapExcept (WMT.collate_fn d.tokenizer d.langs d.max_len)
      (chunks d.batch_size dataset) with
  | .error e => .error e
  | .ok batches => .ok (batches, dataset.length)

/-- Insertion into a sorted list of strings, to model Python `sorted`. -/
def insertSorted (x : String) : List String → List String
  | [] => [x]
  | y :: ys => if x ≤ y then x :: y :: ys else y :: insertSorted x ys

/-- Python `sorted` on a list of language codes. -/
def sortedStr (l : List String) : List String :=
  l.foldr insertSorted []

/-- data.py line 124 evaluates the argument `local_path=local_path`, but the
identifier `local_path` is bound nowhere in the scope of `WMT.__init__` (it
is neither a parameter nor a global), so the name lookup raises NameError. -/
def wmtScopeLocalPath : Except PyErr String :=
  .error (.nameError "local_path")

/-- data.py lines 115-127: the dataset resolution of `WMT.__init__`.  The
first load is attempted with the sorted pair key inside `try`; only a
ValueError triggers the retry with the reversed key.  Evaluating either
call argument list requires the unbound name `local_path`. -/
def WMT.init (cat : Catalog) (langs : List String) (name : String) :
    Except PyErr String :=
  let ls := sortedStr langs
  let attempt1 :=
    match wmtScopeLocalPath with
    | .ok lp =>
      load_our_dataset cat (.pstr (ls.getD 0 "" ++ "-" ++ ls.getD 1 "")) (.pstr name) lp
    | .error e => .error e
  match attempt1 with
  | .error .valueError =>
    match wmtScopeLocalPath with
    | .ok lp =>
      load_our_dataset cat (.pstr (ls.getD 1 "" ++ "-" ++ ls.getD 0 "")) (.pstr name) lp
    | .error e => .error e
  | r => r

/-! ### data.py lines 156-196: the sampling stream -/

/-- A minibatch as the dict the adapters yield: column name to tensor. -/
abbrev Batch (γ : Type) := List (String × γ)

/-- data.py line 166, written as the evident tuple comprehension
`[(x.split("-")[0], x.split("-")[1]) for x in lang_pairs]` (as committed the
line is a SyntaxError, so it cannot have run as-is). -/
def MNMTDataset.lang_pairs {β : Type} (datasets : List (String × β)) :
    List (String × String) :=
  datasets.map (fun kv => splitPair kv.1)

/-- data.py lines 167-168: `lengths` is `len(datasets[l1+"-"+l2])` for each
pair, i.e. the length of the stored DataLoader (its batch count), and the
distribution is the temperature-powered normalisation of those lengths. -/
def MNMTDataset.prob_dist {β : Type} (datasets : List (String × List β)) (T : ℕ) :
    List ℚ :=
  let pairs := MNMTDataset.lang_pairs datasets
  let lengths := pairs.map (fun p =>
    (((lookupList datasets (p.1 ++ "-" ++ p.2)).getD []).length : ℚ) ^ T)
  lengths.map (fun x => x / lengths.sum)

/-- The sampling weights as the specification states them: `n_p^T`
normalised, with `n_p` the per-pair training example count. -/
def specSamplingWeights (counts : List ℕ) (T : ℕ) : List ℚ :=
  (counts.map (fun n => ((n : ℚ)) ^ T)).map
    (fun x => x / (counts.map (fun n => ((n : ℚ)) ^ T)).sum)

/-- The mutable state of the sampling stream: the fixed batch sources, the
configured languages and mode, and the live sub-iterators (each the list of
its remaining batches). -/
structure StreamState (γ : Type) where
  datasets : List (String × List (Batch γ))
  langs : List String
  bilingual : Bool
  iterators : List (String × List (Batch γ))

/-- data.py lines 175-179: the languages of the drawn pair.  In bilingual
mode they are `langs[0]` and `langs[1]`; otherwise entry `k` of
`lang_pairs`, where `k` is the categorical draw. -/
def chosenLangs {γ : Type} (st : StreamState γ) (k : ℕ) : String × String :=
  if st.bilingual then (st.langs.getD 0 "", st.langs.getD 1 "")
  else (MNMTDataset.lang_pairs st.datasets).getD k ("", "")

/-- data.py lines 182-186: draw the next batch from the sub-iterator of
`pair`; on StopIteration re-create that sub-iterator from its dataset and
draw its first item; a second StopIteration (empty dataset) propagates. -/
def drawPair {γ : Type} (st : StreamState γ) (pair : String) :
    Except PyErr (Batch γ × List (String × List (Batch γ))) :=
  match lookupList st.iterators pair with
  | none => .error .keyError
  | some (b :: rest) => .ok (b, setList st.iterators pair rest)
  | some [] =>
    match lookupList st.datasets pair with
    | none => .error .keyError
    | some [] => .error .stopIteration
    | some (b :: rest) => .ok (b, setList st.iterators pair rest)

/-- data.py line 180: the key `l1 + "-" + l2` of the drawn pair. -/
def streamPairKey {γ : Type} (st : StreamState γ) (k : ℕ) : String :=
  (chosenLangs st k).1 ++ "-" ++ (chosenLangs st k).2

/-- data.py lines 174-193: one `__next__` step.  `k` is the value of the
categorical pair draw and `r` the uniform draw of the direction coin flip;
the swap on line 190 happens only when not bilingual and `r > 0.5`. -/
def MNMTDataset.next {γ : Type} (st : StreamState γ) (k : ℕ) (r : ℚ) :
    Except PyErr ((γ × γ) × StreamState γ) :=
  let l1 := (chosenLangs st k).1
  let l2 := (chosenLangs st k).2
  match drawPair st (streamPairKey st k) with
  | .error e => .error e
  | .ok (data, its) =>
    match lookupList data ("input_ids_" ++ l1), lookupList data ("input_ids_" ++ l2) with
    | some x, some y =>
      if st.bilingual = false ∧ 1 / 2 < r then
        .ok ((y, x), { st with iterators := its })
      else
        .ok ((x, y), { st with iterators := its })
    | _, _ => .error .keyError

/-- The bilingual behaviour as the specification states it: draw from the
single configured pair and return the `(langs[0], langs[1])` order,
consulting no randomness. -/
def nextBilingualSpec {γ : Type} (st : StreamState γ) :
    Except PyErr ((γ × γ) × StreamState γ) :=
  let l1 := st.langs.getD 0 ""
  let l2 := st.langs.getD 1 ""
  match drawPair st (l1 ++ "-" ++ l2) with
  | .error e => .error e
  | .ok (data, its) =>
    match lookupList data ("input_ids_" ++ l1), lookupList data ("input_ids_" ++ l2) with
    | some x, some y => .ok ((x, y), { st with iterators := its })
    | _, _ => .error .keyError

/-! ### Concrete inputs for the evaluation theorems and witnesses -/

/-- A concrete tokenizer: the raw subword encoding of a text is its length
twice, the pad id is 1, and the marker id of a locale tag is its length. -/
def tkEval : Tokenizer :=
  { rawEncode := fun s => [s.length, s.length]
    padId := 1
    lang_code_to_id := String.length }

/-- A TedMulti adapter constructed with batch size 32 over a seven-example
training corpus. -/
def ted5 : TedMulti :=
  { langs := ["en"]
    batch_size := 32
    max_len := 2
    tokenizer := tkEval
    dataset := fun split => if split = "train" then
        List.replicate 7 [("en", "hi")] else [] }

/-- A TedMulti adapter over a six-example training corpus whose texts have
pairwise distinct lengths, so the batch order is observable. -/
def ted6 : TedMulti :=
  { langs := ["en"]
    batch_size := 3
    max_len := 2
    tokenizer := tkEval
    dataset := fun split => if split = "train" then
        [[("en", "a")], [("en", "bb")], [("en", "ccc")],
         [("en", "dddd")], [("en", "eeeee")], [("en", "ffffff")]] else [] }

/-- The single batch source of the recycling witness. -/
def st2wSrc : List (Batch ℕ) := [[("input_ids_az", 10), ("input_ids_en", 20)]]

/-- A non-bilingual stream state whose only sub-iterator is exhausted while
its batch source is non-empty. -/
def st2w : StreamState ℕ :=
  { datasets := [("az-en", st2wSrc)]
    langs := ["az", "en"]
    bilingual := false
    iterators := [("az-en", [])] }

/-- A bilingual stream state with a live sub-iterator for its single pair. -/
def st3w : StreamState ℕ :=
  { datasets := [("en-fr", [[("input_ids_en", 1), ("input_ids_fr", 2)]])]
    langs := ["en", "fr"]
    bilingual := true
    iterators := [("en-fr", [[("input_ids_en", 1), ("input_ids_fr", 2)]])] }

/-! ### Dictionary lemmas -/

/-- Looking up the key just assigned returns the new value when the key was
present, and nothing otherwise. -/
theorem lookupList_setList {α : Type} (m : List (String × α)) (k : String) (v : α) :
    lookupList (setList m k v) k = (lookupList m k).map (fun _ => v) := by
  induction m with
  | nil => rfl
  | cons kv rest ih =>
    rcases kv with ⟨k0, w⟩
    by_cases h : k0 = k
    · subst h
      show lookupList ((if k0 = k0 then (k0, v) else (k0, w)) :: setList rest k0 v) k0
          = Option.map (fun _ => v) (lookupList ((k0, w) :: rest) k0)
      rw [if_pos rfl]
      show (if k0 = k0 then some v else lookupList (setList rest k0 v) k0)
          = Option.map (fun _ => v) (if k0 = k0 then some w else lookupList rest k0)
      rw [if_pos rfl, if_pos rfl]
      rfl
    · show lookupList ((if k0 = k then (k, v) else (k0, w)) :: setList rest k v) k
          = Option.map (fun _ => v) (lookupList ((k0, w) :: rest) k)
      rw [if_neg h]
      show (if k0 = k then some w else lookupList (setList rest k v) k)
          = Option.map (fun _ => v) (if k0 = k then some w else lookupList rest k)
      rw [if_neg h, if_neg h]
      exact ih

/-- Re-assigning the same key overwrites the previous assignment. -/
theorem setList_setList {α : Type} (m : List (String × α)) (k : String) (v w : α) :
    setList (setList m k v) k w = setList m k w := by
  induction m with
  | nil => rfl
  | cons kv rest ih =>
    rcases kv with ⟨k0, w0⟩
    by_cases h : k0 = k
    · subst h
      simp [setList, ih]
    · simp [setList, h, ih]

/-- A successful lookup comes from a stored entry. -/
theorem lookupList_mem {α : Type} :
    ∀ (m : List (String × α)) (key : String) (v : α),
      lookupList m key = some v → (key, v) ∈ m
  | [], _, _, h => by simp [lookupList] at h
  | (k, w) :: rest, key, v, h => by
    by_cases hk : k = key
    · subst hk
      simp [lookupList] at h
      subst h
      exact List.mem_cons_self _ _
    · simp [lookupList, hk] at h
      exact List.mem_cons_of_mem _ (lookupList_mem rest key v h)

/-- With every batch source non-empty, a draw never surfaces StopIteration. -/
theorem drawPair_ne_stop {γ : Type} (st : StreamState γ) (pair : String)
    (hne : ∀ kv ∈ st.datasets, kv.2 ≠ []) :
    drawPair st pair ≠ .error .stopIteration := by
  unfold drawPair
  cases hit : lookupList st.iterators pair with
  | none => simp
  | some it =>
    cases it with
    | cons b rest => simp
    | nil =>
      cases hds : lookupList st.datasets pair with
      | none => simp
      | some src =>
        cases src with
        | cons b rest => simp
        | nil => exact absurd rfl (hne _ (lookupList_mem _ _ _ hds))

/-! ### Tokenization lemmas -/

/-- The padded-truncated encoding always has length exactly `max_length`. -/
theorem encode_length (tk : Tokenizer) (text : String) (m : ℕ) :
    (tk.encode text m).length = m := by
  simp [Tokenizer.encode]
  omega

/-! ### Mask lemmas for the training metrics -/

/-- Every mask entry is 0 or 1, so the mask total is non-negative. -/
theorem maskOf_sum_nonneg (l : List ℕ) : 0 ≤ (maskOf l).sum := by
  induction l with
  | nil => simp [maskOf]
  | cons t ts ih =>
    simp only [maskOf, List.map_cons, List.sum_cons] at ih ⊢
    have h0 : (0 : ℚ) ≤ if t = 0 then 0 else 1 := by split <;> norm_num
    linarith

/-- A nonzero target contributes 1 to the mask total, making it positive. -/
theorem maskOf_sum_pos (t : ℕ) (hne : t ≠ 0) :
    ∀ l : List ℕ, t ∈ l → 0 < (maskOf l).sum := by
  intro l
  induction l with
  | nil => intro h; simp at h
  | cons a as ih =>
    intro h
    simp only [maskOf, List.map_cons, List.sum_cons]
    rcases List.mem_cons.mp h with h | h
    · subst h
      rw [if_neg hne]
      have := maskOf_sum_nonneg as
      simp only [maskOf] at this
      linarith
    · have hpos := ih h
      simp only [maskOf] at hpos
      have h0 : (0 : ℚ) ≤ if a = 0 then 0 else 1 := by split <;> norm_num
      linarith

/-- Masked elementwise products agree whenever the two prediction lists
agree at every position with a nonzero target. -/
theorem zip_mask_congr {β : Type} (f : β → ℕ → ℚ) (d : β) (y_true : List ℕ) :
    ∀ p q : List β, p.length = y_true.length → q.length = y_true.length →
      (∀ i, y_true.getD i 0 ≠ 0 → p.getD i d = q.getD i d) →
      List.zipWith (fun a m => a * m) (List.zipWith f p y_true) (maskOf y_true)
        = List.zipWith (fun a m => a * m) (List.zipWith f q y_true) (maskOf y_true) := by
  induction y_true with
  | nil =>
    intro p q _ _ _
    simp [maskOf]
  | cons t ts ih =>
    intro p q hp hq h
    match p, q with
    | [], _ => simp at hp
    | _ :: _, [] => simp at hq
    | a :: as, b :: bs =>
      simp only [maskOf, List.map_cons, List.zipWith_cons_cons]
      have htail := ih as bs (by simpa using hp) (by simpa using hq)
        (fun i hi => by simpa using h (i + 1) (by simpa using hi))
      simp only [maskOf] at htail
      by_cases ht : t = 0
      · simp [ht, htail]
      · have hab : a = b := by simpa using h 0 (by simpa using ht)
        simp [ht, hab, htail]

/-! ### Claim theorems -/

/-- C1.  The sampling distribution the stream actually builds comes from
`len(datasets[pair])`, the batch count of each stored DataLoader, not from
the per-pair example counts: over corpora of 6 and 10 examples batched by 5
(batch counts 2 and 2) and temperature 1, `prob_dist` is the uniform
`[1/2, 1/2]`, while the weights `n_p^T / Σ n_q^T` of the specification are
`[3/8, 5/8]`. -/
theorem prob_dist_not_example_counts :
    MNMTDataset.prob_dist
        [("az-en", chunks 5 (List.range 6)), ("en-tr", chunks 5 (List.range 10))] 1
      = [1 / 2, 1 / 2]
  ∧ specSamplingWeights [6, 10] 1 = [3 / 8, 5 / 8]
  ∧ MNMTDataset.prob_dist
        [("az-en", chunks 5 (List.range 6)), ("en-tr", chunks 5 (List.range 10))] 1
      ≠ specSamplingWeights [6, 10] 1 := by
  have e1 : (chunks 5 (List.range 6)).length = 2 := rfl
  have e2 : (chunks 5 (List.range 10)).length = 2 := rfl
  have h1 : MNMTDataset.prob_dist
      [("az-en", chunks 5 (List.range 6)), ("en-tr", chunks 5 (List.range 10))] 1
      = [1 / 2, 1 / 2] := by
    simp [MNMTDataset.prob_dist, MNMTDataset.lang_pairs, splitPair, splitDashAux,
      lookupList, e1, e2]
    norm_num
  have h2 : specSamplingWeights [6, 10] 1 = [3 / 8, 5 / 8] := by
    simp [specSamplingWeights]
    norm_num
  refine ⟨h1, h2, ?_⟩
  rw [h1, h2]
  intro h
  simp at h
  norm_num at h

/-- C2.  When the selected sub-iterator is exhausted, `__next__` behaves
exactly as on the state whose sub-iterator has been re-created from its
original batch source (so the first item of the fresh iterator is drawn),
and with every batch source non-empty `__next__` never surfaces
StopIteration. -/
theorem next_recycles_and_total {γ : Type} (st : StreamState γ) (k : ℕ) (r : ℚ) :
    (∀ src, lookupList st.iterators (streamPairKey st k) = some [] →
      lookupList st.datasets (streamPairKey st k) = some src →
      MNMTDataset.next st k r
        = MNMTDataset.next
            { st with iterators := setList st.iterators (streamPairKey st k) src } k r)
  ∧ ((∀ kv ∈ st.datasets, kv.2 ≠ []) →
      MNMTDataset.next st k r ≠ .error .stopIteration) := by
  constructor
  · intro src h1 h2
    have hkey : lookupList (setList st.iterators (streamPairKey st k) src)
        (streamPairKey st k) = some src := by
      rw [lookupList_setList, h1]
      rfl
    have hpk : streamPairKey
        { st with iterators := setList st.iterators (streamPairKey st k) src } k
        = streamPairKey st k := rfl
    have hch : chosenLangs
        { st with iterators := setList st.iterators (streamPairKey st k) src } k
        = chosenLangs st k := rfl
    have hdraw : drawPair
        { st with iterators := setList st.iterators (streamPairKey st k) src }
        (streamPairKey st k) = drawPair st (streamPairKey st k) := by
      cases src with
      | nil => simp [drawPair, hkey, h1, h2]
      | cons b rest => simp [drawPair, hkey, h1, h2, setList_setList]
    simp only [MNMTDataset.next, hpk, hch, hdraw]
  · intro hne
    cases hd : drawPair st (streamPairKey st k) with
    | error e =>
      have hstop : e ≠ .stopIteration := by
        intro he
        subst he
        exact drawPair_ne_stop st (streamPairKey st k) hne hd
      unfold MNMTDataset.next
      rw [hd]
      intro hcontra
      exact hstop (Except.error.inj hcontra)
    | ok p =>
      rcases p with ⟨data, its⟩
      unfold MNMTDataset.next
      rw [hd]
      intro hcontra
      dsimp only at hcontra
      rcases hx : lookupList data ("input_ids_" ++ (chosenLangs st k).1) with _ | x <;>
        rcases hy : lookupList data ("input_ids_" ++ (chosenLangs st k).2) with _ | y <;>
        rw [hx, hy] at hcontra <;>
        dsimp only at hcontra <;>
        first
          | exact PyErr.noConfusion (Except.error.inj hcontra)
          | (split at hcontra <;> exact Except.noConfusion hcontra)

/-- Witness for C2 on a concrete exhausted state. -/
theorem next_recycles_and_total_w :
    MNMTDataset.next st2w 0 0
      = MNMTDataset.next
          { st2w with iterators := setList st2w.iterators (streamPairKey st2w 0) st2wSrc } 0 0
  ∧ MNMTDataset.next st2w 0 0 ≠ .error .stopIteration :=
  ⟨(next_recycles_and_total st2w 0 0).1 st2wSrc (by decide) (by decide),
   (next_recycles_and_total st2w 0 0).2 (by decide)⟩

/-- C3.  In bilingual mode every `__next__` result equals the no-swap
reference behaviour: the configured `(langs[0], langs[1])` order is
returned whatever the values of both random draws. -/
theorem bilingual_never_swaps {γ : Type} (st : StreamState γ) (k : ℕ) (r : ℚ)
    (h : st.bilingual = true) :
    MNMTDataset.next st k r = nextBilingualSpec st := by
  unfold MNMTDataset.next nextBilingualSpec streamPairKey chosenLangs
  rw [h]
  simp only [if_true]
  cases hd : drawPair st (st.langs.getD 0 "" ++ "-" ++ st.langs.getD 1 "") with
  | error e => rfl
  | ok p =>
    cases p with
    | mk data its =>
      cases lookupList data ("input_ids_" ++ st.langs.getD 0 "") <;>
        cases lookupList data ("input_ids_" ++ st.langs.getD 1 "") <;>
        simp [h]

/-- Witness for C3: a swap-triggering coin flip (r = 9/10 > 1/2) still
yields the configured order on a concrete bilingual state. -/
theorem bilingual_never_swaps_w :
    MNMTDataset.next st3w 5 (9 / 10) = nextBilingualSpec st3w :=
  bilingual_never_swaps st3w 5 (9 / 10) rfl

/-- C4.  For a supported language, the per-language tokenization step of
both adapters always succeeds, yields a sequence of length exactly
`max_len`, and places the locale marker at index 0 (overwriting the
previous first token). -/
theorem tokenize_len_and_marker (tk : Tokenizer) (max_len : ℕ) (lang code : String)
    (hml : 0 < max_len) (hcode : lookupList LANG_CODES lang = some code) :
    (∀ text, ∃ out, encodeLang tk max_len lang text = .ok out
        ∧ out.length = max_len ∧ out.head? = some (tk.lang_code_to_id code))
  ∧ (∀ texts, ∃ outs, wmtEncodeLang tk max_len lang texts = .ok outs
        ∧ ∀ o ∈ outs, o.length = max_len ∧ o.head? = some (tk.lang_code_to_id code)) := by
  have hone : ∀ text, ∃ out,
      setItem0 (tk.encode text max_len) (tk.lang_code_to_id code) = .ok out
        ∧ out.length = max_len ∧ out.head? = some (tk.lang_code_to_id code) := by
    intro text
    have hlen := encode_length tk text max_len
    cases henc : tk.encode text max_len with
    | nil =>
      rw [henc] at hlen
      simp at hlen
      omega
    | cons a as =>
      rw [henc] at hlen
      exact ⟨tk.lang_code_to_id code :: as, rfl, by simpa using hlen, rfl⟩
  constructor
  · intro text
    obtain ⟨out, hset, hlen, hhead⟩ := hone text
    exact ⟨out, by simp [encodeLang, hcode, hset], hlen, hhead⟩
  · intro texts
    induction texts with
    | nil => exact ⟨[], by simp [wmtEncodeLang, hcode, mapExcept], by simp⟩
    | cons t ts ih =>
      obtain ⟨outs, hmap, hall⟩ := ih
      obtain ⟨out, hset, hlen, hhead⟩ := hone t
      have hmap2 : mapExcept
          (fun t => setItem0 (tk.encode t max_len) (tk.lang_code_to_id code)) ts
          = .ok outs := by
        simpa [wmtEncodeLang, hcode] using hmap
      refine ⟨out :: outs, ?_, ?_⟩
      · simp [wmtEncodeLang, hcode, mapExcept, hset, hmap2]
      · intro o ho
        rcases List.mem_cons.mp ho with ho | ho
        · subst ho
          exact ⟨hlen, hhead⟩
        · exact hall o ho

/-- Witness for C4 with a concrete tokenizer, max_len 3 and language en. -/
theorem tokenize_len_and_marker_w :
    ∃ out, encodeLang tkEval 3 "en" "hi" = .ok out
      ∧ out.length = 3 ∧ out.head? = some (tkEval.lang_code_to_id "en_XX") :=
  (tokenize_len_and_marker tkEval 3 "en" "en_XX" (by decide) (by decide)).1 "hi"

/-- C5.  The TedMulti loader ignores the configured batch size: constructed
with batch size 32 over seven examples, its train split still comes out in
batches of sizes [5, 2] because the DataLoader is built with the literal
`batch_size=5`. -/
theorem ted_load_split_batch_five :
    ted5.batch_size = 32
  ∧ (TedMulti.load_split ted5 "train" false).map (fun res => (res.1.map List.length, res.2))
      = .ok ([5, 2], 7) :=
  ⟨rfl, rfl⟩

/-- C6.  Both loaders drop the `shuffle` argument entirely — the result is
the same function of the corpus for every value of `shuffle` — and on a
concrete six-example training corpus requesting `shuffle=True` still yields
the batches in exact corpus order. -/
theorem load_split_shuffle_ignored :
    (∀ d split s1 s2, TedMulti.load_split d split s1 = TedMulti.load_split d split s2)
  ∧ (∀ d split s1 s2, WMT.load_split d split s1 = WMT.load_split d split s2)
  ∧ TedMulti.load_split ted6 "train" true
      = .ok ([[[("input_ids_en", [5, 1])], [("input_ids_en", [5, 2])],
               [("input_ids_en", [5, 3])], [("input_ids_en", [5, 4])],
               [("input_ids_en", [5, 5])]],
              [[("input_ids_en", [5, 6])]]], 6) :=
  ⟨fun _ _ _ _ => rfl, fun _ _ _ _ => rfl, rfl⟩

/-- C7.  `WMT.__init__` raises NameError for every catalog, language pair
and corpus name — the unbound `local_path` is hit before any load — so
construction fails even when both pair orderings are present, contradicting
the claim that it fails only when both are absent. -/
theorem wmt_init_raises_name_error (cat : Catalog) (langs : List String) (name : String) :
    WMT.init cat langs name = .error (.nameError "local_path") := rfl

/-- C8.  With a language pair and no explicit name, `load_our_dataset`
raises TypeError for every catalog: line 64 binds the name to the boolean
of the comparison with ted_multi, and slicing that boolean fails, for the
ted-backed pair en-tr and the wmt-backed pair cs-en alike. -/
theorem load_our_dataset_bool_name_type_error (cat : Catalog) :
    load_our_dataset cat (.pstr "en-tr") .pnone "." = .error .typeError
  ∧ load_our_dataset cat (.pstr "cs-en") .pnone "." = .error .typeError :=
  ⟨rfl, rfl⟩

/-- C9.  The shared divisor of `loss_fn` and `accuracy_fn`, the mask total
`(maskOf y_true).sum`, is nonzero whenever some target entry is nonzero and
zero when every target entry is zero. -/
theorem mask_divisor_of_targets (y_true : List ℕ) :
    ((∃ t ∈ y_true, t ≠ 0) → (maskOf y_true).sum ≠ 0)
  ∧ ((∀ t ∈ y_true, t = 0) → (maskOf y_true).sum = 0) := by
  constructor
  · rintro ⟨t, ht, hne⟩
    exact ne_of_gt (maskOf_sum_pos t hne y_true ht)
  · intro h
    apply List.sum_eq_zero
    intro x hx
    obtain ⟨t, ht, hxt⟩ := List.mem_map.mp hx
    rw [← hxt, if_pos (h t ht)]

/-- Witness for C9 on the targets [0, 3] and [0, 0]. -/
theorem mask_divisor_of_targets_w :
    (maskOf [0, 3]).sum ≠ 0 ∧ (maskOf [0, 0]).sum = 0 :=
  ⟨(mask_divisor_of_targets [0, 3]).1 ⟨3, by simp, by decide⟩,
   (mask_divisor_of_targets [0, 0]).2 (by decide)⟩

/-- C10.  `loss_fn` and `accuracy_fn` depend only on the predictions at
positions whose target is nonzero: two same-shape prediction tensors that
agree there give equal loss and equal accuracy. -/
theorem loss_acc_ignore_masked_positions (criterion : List ℚ → ℕ → ℚ)
    (y_pred1 y_pred2 : List (List ℚ)) (y_true : List ℕ)
    (h1 : y_pred1.length = y_true.length) (h2 : y_pred2.length = y_true.length)
    (hagree : ∀ i, y_true.getD i 0 ≠ 0 → y_pred1.getD i [] = y_pred2.getD i []) :
    loss_fn y_pred1 y_true criterion = loss_fn y_pred2 y_true criterion
  ∧ accuracy_fn y_pred1 y_true = accuracy_fn y_pred2 y_true := by
  constructor
  · unfold loss_fn
    rw [zip_mask_congr criterion [] y_true y_pred1 y_pred2 h1 h2 hagree]
  · unfold accuracy_fn
    rw [zip_mask_congr (fun p t => if listArgmax p = t then (1 : ℚ) else 0) []
      y_true y_pred1 y_pred2 h1 h2 hagree]

/-- Witness for C10: predictions differing only at the masked position. -/
theorem loss_acc_ignore_masked_positions_w :
    loss_fn [[5, 1], [2, 9]] [0, 2] (fun p t => p.sum + (t : ℚ))
      = loss_fn [[7, 7], [2, 9]] [0, 2] (fun p t => p.sum + (t : ℚ))
  ∧ accuracy_fn [[5, 1], [2, 9]] [0, 2] = accuracy_fn [[7, 7], [2, 9]] [0, 2] :=
  loss_acc_ignore_masked_positions (fun p t => p.sum + (t : ℚ))
    [[5, 1], [2, 9]] [[7, 7], [2, 9]] [0, 2] rfl rfl (by
      intro i hi
      match i with
      | 0 => simp at hi
      | 1 => rfl
      | n + 2 => simp at hi)

end NMT
